import Mathlib

/-!
Verification of the Trading-Project repository against its specification.

The repository ships a React frontend (`frontend/src/components/StockDashboard.jsx`,
`StockDashboard1.jsx`, an unnamed dashboard variant) that consumes a FastAPI
backend exposing `/api/stock/{symbol}` and `/api/predict/{symbol}`.  The
frontend helper functions (`filterDataByTimeRange`, `calculateTrend`,
`calculate52WeekStats`) are embedded directly from the JavaScript source.
The backend ensemble aggregator is not part of the available sources, so it
is modelled from the specification (marked `Modelled from the spec:` below).

JavaScript numbers are modelled shallowly by `JNum`: a rational value, NaN,
or a signed infinity; `undefined` entering arithmetic is coerced to NaN at
the indexing boundary, exactly as JavaScript's `ToNumber` does.
-/

/-- A JavaScript number as observed by the dashboard helpers: a finite
(rational) value, `NaN`, `+Infinity` or `-Infinity`. -/
inductive JNum where
  | num : ℚ → JNum
  | nan : JNum
  | posInf : JNum
  | negInf : JNum
deriving DecidableEq

/-- JavaScript subtraction `a - b` on `JNum` (NaN propagates; opposite
infinities cancel to NaN). -/
def jsSub : JNum → JNum → JNum
  | JNum.num a, JNum.num b => JNum.num (a - b)
  | JNum.nan, _ => JNum.nan
  | _, JNum.nan => JNum.nan
  | JNum.posInf, JNum.posInf => JNum.nan
  | JNum.negInf, JNum.negInf => JNum.nan
  | JNum.posInf, _ => JNum.posInf
  | JNum.negInf, _ => JNum.negInf
  | JNum.num _, JNum.posInf => JNum.negInf
  | JNum.num _, JNum.negInf => JNum.posInf

/-- JavaScript division `a / b` on `JNum`: division of a nonzero finite value
by zero yields a signed infinity, `0 / 0` yields NaN, NaN propagates. -/
def jsDiv : JNum → JNum → JNum
  | JNum.nan, _ => JNum.nan
  | _, JNum.nan => JNum.nan
  | JNum.num a, JNum.num b =>
      if b = 0 then
        (if a = 0 then JNum.nan else if 0 < a then JNum.posInf else JNum.negInf)
      else JNum.num (a / b)
  | JNum.num _, JNum.posInf => JNum.num 0
  | JNum.num _, JNum.negInf => JNum.num 0
  | JNum.posInf, JNum.num b => if 0 ≤ b then JNum.posInf else JNum.negInf
  | JNum.negInf, JNum.num b => if 0 ≤ b then JNum.negInf else JNum.posInf
  | _, _ => JNum.nan

/-- JavaScript multiplication `a * b` on `JNum` (NaN propagates;
`±Infinity * 0` is NaN). -/
def jsMul : JNum → JNum → JNum
  | JNum.nan, _ => JNum.nan
  | _, JNum.nan => JNum.nan
  | JNum.num a, JNum.num b => JNum.num (a * b)
  | JNum.posInf, JNum.num b =>
      if b = 0 then JNum.nan else if 0 < b then JNum.posInf else JNum.negInf
  | JNum.negInf, JNum.num b =>
      if b = 0 then JNum.nan else if 0 < b then JNum.negInf else JNum.posInf
  | JNum.num a, JNum.posInf =>
      if a = 0 then JNum.nan else if 0 < a then JNum.posInf else JNum.negInf
  | JNum.num a, JNum.negInf =>
      if a = 0 then JNum.nan else if 0 < a then JNum.negInf else JNum.posInf
  | JNum.posInf, JNum.posInf => JNum.posInf
  | JNum.negInf, JNum.negInf => JNum.posInf
  | _, _ => JNum.negInf

/-- JavaScript array indexing `l[i]` followed by use in arithmetic: an index
that is negative or out of range yields `undefined`, which arithmetic coerces
to NaN. -/
def jsIndex (l : List ℚ) (i : ℤ) : JNum :=
  if h : 0 ≤ i ∧ i.toNat < l.length then JNum.num (l.get ⟨i.toNat, h.2⟩) else JNum.nan

/-- `Math.max(...l)`: `-Infinity` on an empty argument list. -/
def jsMaxList (l : List ℚ) : JNum :=
  match l with
  | [] => JNum.negInf
  | x :: xs => JNum.num (xs.foldl max x)

/-- `Math.min(...l)`: `+Infinity` on an empty argument list. -/
def jsMinList (l : List ℚ) : JNum :=
  match l with
  | [] => JNum.posInf
  | x :: xs => JNum.num (xs.foldl min x)

/-- The `ranges` table of `filterDataByTimeRange`
(`frontend/src/components/StockDashboard1.jsx`, lines 165-170): number of
trailing data points per time-range key; unknown keys map to `undefined`. -/
def filterRanges (timeRange : String) : Option ℕ :=
  if timeRange = "1m" then some 30
  else if timeRange = "3m" then some 90
  else if timeRange = "6m" then some 180
  else if timeRange = "1y" then some 365
  else none

/-- `filterDataByTimeRange` from
`frontend/src/components/StockDashboard1.jsx`, lines 162-174.  `none` models
a null/undefined `data` argument; `data.slice(-n)` is `List.drop` of all but
the last `n` elements; `slice(undefined)` (unknown key) copies the array. -/
def filterDataByTimeRange {α : Type} (timeRange : String) (data : Option (List α)) :
    Option (List α) :=
  match data with
  | none => none
  | some l =>
    if timeRange = "all" then some l
    else
      match filterRanges timeRange with
      | some n => some (l.drop (l.length - n))
      | none => some l

/-- `calculateTrend` from `frontend/src/components/StockDashboard1.jsx`,
lines 188-194.  The argument models `stockData?.series?.close` (`none` when
absent); list entries are `null`able closes.  The guard tests the raw series
length, then the nulls are filtered out and the last two remaining prices
are combined with JavaScript arithmetic. -/
def calculateTrend (closeSeries : Option (List (Option ℚ))) : JNum :=
  match closeSeries with
  | none => JNum.num 0
  | some close =>
    if close.length < 2 then JNum.num 0
    else
      jsMul
        (jsDiv
          (jsSub (jsIndex (close.filterMap id) (((close.filterMap id).length : ℤ) - 1))
                 (jsIndex (close.filterMap id) (((close.filterMap id).length : ℤ) - 2)))
          (jsIndex (close.filterMap id) (((close.filterMap id).length : ℤ) - 2)))
        (JNum.num 100)

/-- `calculate52WeekStats` from `frontend/src/components/StockDashboard1.jsx`,
lines 196-204: `{high: Math.max(...last252), low: Math.min(...last252)}`
where `last252 = prices.slice(-252)` over the non-null closes, and
`{high: 0, low: 0}` when the close series is absent. -/
def calculate52WeekStats (closeSeries : Option (List (Option ℚ))) : JNum × JNum :=
  match closeSeries with
  | none => (JNum.num 0, JNum.num 0)
  | some close =>
    let prices := close.filterMap id
    let last252 := prices.drop (prices.length - 252)
    (jsMaxList last252, jsMinList last252)

/-- Modelled from the spec: the backend's per-strategy result (section 3,
`StrategyResult`), a tagged union of a successful predicted price or a
failure reason.  The backend source is not in the repository snapshot. -/
inductive StrategyResult where
  | success : ℚ → StrategyResult
  | failure : String → StrategyResult
deriving DecidableEq

/-- `true` exactly on `StrategyResult.success`. -/
def StrategyResult.isSuccess : StrategyResult → Bool
  | StrategyResult.success _ => true
  | StrategyResult.failure _ => false

/-- Modelled from the spec: forecast direction, `UP` or `DOWN` (section 3). -/
inductive Direction where
  | UP : Direction
  | DOWN : Direction
deriving DecidableEq

/-- Modelled from the spec: an entry of `EnsembleForecast.models`, either a
headline strategy's price or the explicit failure sentinel the dashboard
tests for (`prediction.details.models.LSTM !== "Failed"`). -/
inductive ModelEntry where
  | price : ℚ → ModelEntry
  | failedSentinel : ModelEntry
deriving DecidableEq

/-- Modelled from the spec: the hard failure of the pipeline when no
strategy produced a usable numeric result (section 7, kind (b)). -/
structure InsufficientModelsError where
  message : String
deriving DecidableEq

/-- Modelled from the spec: the configured weighting scheme (section 4.3);
`regime_weighted` carries the out-of-band per-regime weight table. -/
inductive WeightMethod where
  | equalWeight : WeightMethod
  | regimeWeighted : (ℤ → String → ℚ) → WeightMethod

/-- Modelled from the spec: the aggregate forecast record (section 3,
`EnsembleForecast`), missing from the repository snapshot together with the
backend. -/
structure EnsembleForecast where
  current_price : ℚ
  predicted_next_close : ℚ
  direction : Direction
  expected_change_pct : String
  models : List (String × ModelEntry)
  raw_predictions : List (String × ℚ)
  num_strategies : ℕ
  cluster_regime : Option ℤ
  ensemble_method : String
deriving DecidableEq

/-- Modelled from the spec: the three headline strategies always surfaced by
name (section 4.1), as rendered by the dashboards. -/
def headlineNames : List String := ["LinearRegression", "XGBoost", "LSTM"]

/-- Modelled from the spec: the successful entries of `strategy_results`,
each paired with its predicted price (section 4.3, partition step). -/
def successesOf (rs : List (String × StrategyResult)) : List (String × ℚ) :=
  rs.filterMap fun nr =>
    match nr.2 with
    | StrategyResult.success p => some (nr.1, p)
    | StrategyResult.failure _ => none

/-- Arithmetic mean of a list of predictions. -/
def meanPred (ps : List ℚ) : ℚ := ps.sum / (ps.length : ℚ)

/-- Modelled from the spec: regime-weighted combination with the surviving
weights renormalized to sum to 1 (dividing by the surviving weight mass). -/
def weightedPred (w : String → ℚ) (succ : List (String × ℚ)) : ℚ :=
  (succ.map fun np => w np.1 * np.2).sum / (succ.map fun np => w np.1).sum

/-- Modelled from the spec: the name of the weighting scheme actually used;
a null regime falls back to equal weighting (section 4.3). -/
def methodNameUsed (m : WeightMethod) (regime : Option ℤ) : String :=
  match m, regime with
  | WeightMethod.regimeWeighted _, some _ => "regime_weighted"
  | _, _ => "equal_weight"

/-- Modelled from the spec: the consensus `predicted_next_close` under the
scheme actually used for this request. -/
def predictedClose (m : WeightMethod) (regime : Option ℤ) (succ : List (String × ℚ)) : ℚ :=
  match m, regime with
  | WeightMethod.regimeWeighted table, some r => weightedPred (table r) succ
  | _, _ => meanPred (succ.map Prod.snd)

/-- Modelled from the spec: the `models` entry for a headline strategy: its
price when it succeeded, the failure sentinel otherwise (section 4.1). -/
def modelEntryFor (rs : List (String × StrategyResult)) (name : String) : ModelEntry :=
  match rs.lookup name with
  | some (StrategyResult.success p) => ModelEntry.price p
  | _ => ModelEntry.failedSentinel

/-- Two decimal digits with a leading zero, e.g. `07`. -/
def pad2 (m : ℕ) : String :=
  String.mk [Nat.digitChar (m / 10 % 10), Nat.digitChar (m % 10)]

/-- Round a non-negative rational to hundredths (half away from zero),
returning the number of hundredths. -/
def round2 (q : ℚ) : ℕ := (⌊q * 100 + 1 / 2⌋).toNat

/-- Modelled from the spec: render a percentage as a signed string with a
fixed precision of two decimal places, with an explicit `+` sign for
non-negative values (section 4.3, `expected_change_pct`). -/
def fmtSignedPct2 (q : ℚ) : String :=
  (if 0 ≤ q then "+" else "-") ++
    toString (round2 |q| / 100) ++ "." ++ pad2 (round2 |q| % 100) ++ "%"

/-- Modelled from the spec: the error value raised when every strategy
failed (section 7). -/
def insufficientModelsError : InsufficientModelsError :=
  ⟨"no strategy produced a usable numeric result"⟩

/-- Modelled from the spec: the forecast record assembled from the surviving
strategy results, the regime and the current price (section 4.3). -/
def buildForecast (m : WeightMethod) (rs : List (String × StrategyResult))
    (regime : Option ℤ) (current_price : ℚ) : EnsembleForecast :=
  { current_price := current_price
    predicted_next_close := predictedClose m regime (successesOf rs)
    direction :=
      if current_price ≤ predictedClose m regime (successesOf rs) then Direction.UP
      else Direction.DOWN
    expected_change_pct :=
      fmtSignedPct2
        ((predictedClose m regime (successesOf rs) - current_price) / current_price * 100)
    models := headlineNames.map fun n => (n, modelEntryFor rs n)
    raw_predictions := successesOf rs
    num_strategies := (successesOf rs).length
    cluster_regime := regime
    ensemble_method := methodNameUsed m regime }

/-- Modelled from the spec: `aggregate(strategy_results, regime,
current_price)` (section 4.3).  Fails with `InsufficientModelsError` when
zero strategies succeeded, otherwise returns the assembled forecast.  The
backend implementing this contract is absent from the repository snapshot. -/
def aggregate (m : WeightMethod) (rs : List (String × StrategyResult))
    (regime : Option ℤ) (current_price : ℚ) :
    Except InsufficientModelsError EnsembleForecast :=
  if (successesOf rs).isEmpty then Except.error insufficientModelsError
  else Except.ok (buildForecast m rs regime current_price)

/-- The spec's worked scenario: three successful strategies predicting
101.0, 99.5 and 100.5. -/
def demoResults : List (String × StrategyResult) :=
  [("LinearRegression", StrategyResult.success 101),
   ("XGBoost", StrategyResult.success (199 / 2)),
   ("LSTM", StrategyResult.success (201 / 2))]

/-- The forecast the model produces on the spec's worked scenario at current
price 100 under equal weighting with no regime. -/
def demoForecast : EnsembleForecast :=
  buildForecast WeightMethod.equalWeight demoResults none 100

/-- A strategy-result list in which the LSTM headline strategy failed and
the two other headline strategies succeeded. -/
def lstmFailResults : List (String × StrategyResult) :=
  [("LinearRegression", StrategyResult.success 101),
   ("XGBoost", StrategyResult.success (199 / 2)),
   ("LSTM", StrategyResult.failure "Model Loading")]

/-- A strategy-result list in which every strategy failed. -/
def allFailResults : List (String × StrategyResult) :=
  [("LinearRegression", StrategyResult.failure "timeout"),
   ("XGBoost", StrategyResult.failure "insufficient_features"),
   ("LSTM", StrategyResult.failure "Model Loading")]

/-- Unfolding lemma: a successful `aggregate` call returns exactly the
assembled forecast, and some strategy succeeded. -/
lemma aggregate_eq_ok {m : WeightMethod} {rs : List (String × StrategyResult)}
    {regime : Option ℤ} {cur : ℚ} {f : EnsembleForecast}
    (h : aggregate m rs regime cur = Except.ok f) :
    f = buildForecast m rs regime cur ∧ successesOf rs ≠ [] := by
  unfold aggregate at h
  cases hs : (successesOf rs).isEmpty with
  | true => simp [hs] at h
  | false =>
    simp [hs] at h
    exact ⟨h.symm, fun hnil => by rw [hnil] at hs; simp at hs⟩

/-- C8: `filterDataByTimeRange` passes null data and the `all` range through
unchanged, and for the ranges 1m, 3m, 6m and 1y returns exactly the suffix
of the last 30, 90, 180 and 365 elements respectively (the whole array when
shorter), never reordering or altering elements. -/
theorem filterDataByTimeRange_spec {α : Type} (tr : String) (l : List α) :
    filterDataByTimeRange tr (none : Option (List α)) = none ∧
    filterDataByTimeRange "all" (some l) = some l ∧
    (filterDataByTimeRange "1m" (some l) = some (l.drop (l.length - 30)) ∧
      l.drop (l.length - 30) <:+ l ∧ (l.drop (l.length - 30)).length = min 30 l.length) ∧
    (filterDataByTimeRange "3m" (some l) = some (l.drop (l.length - 90)) ∧
      l.drop (l.length - 90) <:+ l ∧ (l.drop (l.length - 90)).length = min 90 l.length) ∧
    (filterDataByTimeRange "6m" (some l) = some (l.drop (l.length - 180)) ∧
      l.drop (l.length - 180) <:+ l ∧ (l.drop (l.length - 180)).length = min 180 l.length) ∧
    (filterDataByTimeRange "1y" (some l) = some (l.drop (l.length - 365)) ∧
      l.drop (l.length - 365) <:+ l ∧ (l.drop (l.length - 365)).length = min 365 l.length) := by
  refine ⟨rfl, rfl, ⟨rfl, List.drop_suffix _ _, ?_⟩, ⟨rfl, List.drop_suffix _ _, ?_⟩,
    ⟨rfl, List.drop_suffix _ _, ?_⟩, ⟨rfl, List.drop_suffix _ _, ?_⟩⟩ <;>
    simp [List.length_drop] <;> omega

/-- C10: `calculate52WeekStats` returns `{high: 0, low: 0}` when the close
series is absent, but on a present series whose entries are all null it
returns `high = -Infinity` and `low = +Infinity` (Math.max/Math.min over an
empty spread), so the rendered 52-week stats are non-finite. -/
theorem calculate52WeekStats_spec (close : List (Option ℚ)) :
    calculate52WeekStats none = (JNum.num 0, JNum.num 0) ∧
    ((∀ x ∈ close, x = none) →
      calculate52WeekStats (some close) = (JNum.negInf, JNum.posInf)) := by
  refine ⟨rfl, fun hall => ?_⟩
  have hnil : close.filterMap id = [] := by
    rw [List.filterMap_eq_nil_iff]
    intro a ha
    simp [hall a ha]
  simp [calculate52WeekStats, hnil, jsMaxList, jsMinList]

/-- Closed witness for C10 on the concrete all-null series `[null, null]`. -/
theorem calculate52WeekStats_spec_witness :
    calculate52WeekStats (some [none, none]) = (JNum.negInf, JNum.posInf) :=
  (calculate52WeekStats_spec [none, none]).2 (by decide)

/-- `jsIndex` at a natural index in range reads the list element. -/
lemma jsIndex_natCast (l : List ℚ) (j : ℕ) (hj : j < l.length) :
    jsIndex l (j : ℤ) = JNum.num (l.get ⟨j, hj⟩) := by
  unfold jsIndex
  rw [dif_pos ⟨Int.natCast_nonneg j, by simpa using hj⟩]
  rfl

/-- The second-to-last element of `pre ++ [a, b]`. -/
lemma get_append_pair_fst (pre : List ℚ) (a b : ℚ) (j : ℕ) (h : j < (pre ++ [a, b]).length)
    (hj : j = pre.length) : (pre ++ [a, b]).get ⟨j, h⟩ = a := by
  subst hj
  rw [List.get_eq_getElem, List.getElem_append_right (le_refl _)]
  simp

/-- The last element of `pre ++ [a, b]`. -/
lemma get_append_pair_snd (pre : List ℚ) (a b : ℚ) (j : ℕ) (h : j < (pre ++ [a, b]).length)
    (hj : j = pre.length + 1) : (pre ++ [a, b]).get ⟨j, h⟩ = b := by
  subst hj
  rw [List.get_eq_getElem, List.getElem_append_right (by omega : pre.length ≤ pre.length + 1)]
  simp

/-- C9: `calculateTrend` returns 0 when the close series is absent or has
fewer than two entries; with at least two non-null values it computes
`((last - prev) / prev) * 100` over the non-null closes (in JavaScript
arithmetic, hence a plain rational when `prev` is nonzero); but a series of
length at least 2 with fewer than two non-null values yields NaN, not 0,
because the length guard runs before the nulls are filtered out. -/
theorem calculateTrend_spec (close : List (Option ℚ)) :
    calculateTrend none = JNum.num 0 ∧
    (close.length < 2 → calculateTrend (some close) = JNum.num 0) ∧
    (2 ≤ close.length → (close.filterMap id).length < 2 →
      calculateTrend (some close) = JNum.nan) ∧
    (∀ lastP prevP rest, (close.filterMap id).reverse = lastP :: prevP :: rest →
      calculateTrend (some close) =
        jsMul (jsDiv (JNum.num (lastP - prevP)) (JNum.num prevP)) (JNum.num 100) ∧
      (prevP ≠ 0 →
        calculateTrend (some close) = JNum.num ((lastP - prevP) / prevP * 100))) := by
  refine ⟨rfl, ?_, ?_, ?_⟩
  · intro h
    simp only [calculateTrend]
    rw [if_pos h]
  · intro h2 hlt
    simp only [calculateTrend]
    rw [if_neg (by omega)]
    rcases hP : close.filterMap id with _ | ⟨x, _ | ⟨y, t⟩⟩
    · rfl
    · rfl
    · rw [hP] at hlt
      simp only [List.length_cons] at hlt
      omega
  · intro lastP prevP rest hrev
    have hP : close.filterMap id = rest.reverse ++ [prevP, lastP] := by
      have h := congrArg List.reverse hrev
      rw [List.reverse_reverse] at h
      rw [h]
      simp
    have hlen : (close.filterMap id).length = rest.length + 2 := by rw [hP]; simp
    have hle := List.length_filterMap_le id close
    have hmain : calculateTrend (some close) =
        jsMul (jsDiv (JNum.num (lastP - prevP)) (JNum.num prevP)) (JNum.num 100) := by
      simp only [calculateTrend]
      rw [if_neg (by omega)]
      rw [hP]
      have hlen2 : (rest.reverse ++ [prevP, lastP]).length = rest.length + 2 := by simp
      rw [hlen2]
      have hi1 : ((rest.length + 2 : ℕ) : ℤ) - 1 = ((rest.length + 1 : ℕ) : ℤ) := by
        push_cast; ring
      have hi2 : ((rest.length + 2 : ℕ) : ℤ) - 2 = ((rest.length : ℕ) : ℤ) := by
        push_cast; ring
      rw [hi1, hi2]
      have hj1 : rest.length + 1 < (rest.reverse ++ [prevP, lastP]).length := by simp
      have hj2 : rest.length < (rest.reverse ++ [prevP, lastP]).length := by simp
      rw [jsIndex_natCast _ _ hj1, jsIndex_natCast _ _ hj2]
      rw [get_append_pair_snd rest.reverse prevP lastP _ hj1 (by simp)]
      rw [get_append_pair_fst rest.reverse prevP lastP _ hj2 (by simp)]
      rfl
    refine ⟨hmain, fun hprev => ?_⟩
    rw [hmain]
    simp only [jsDiv, jsMul]
    rw [if_neg hprev]

/-- Closed witness for C9: a short series yields 0, an all-null series of
length 2 yields NaN, and a series ending in closes 2 and 4 yields +100%. -/
theorem calculateTrend_spec_witness :
    calculateTrend (some [some 3]) = JNum.num 0 ∧
    calculateTrend (some [none, none]) = JNum.nan ∧
    calculateTrend (some [some 2, some 4]) = JNum.num ((4 - 2) / 2 * 100) :=
  ⟨(calculateTrend_spec [some 3]).2.1 (by decide),
   (calculateTrend_spec [none, none]).2.2.1 (by decide) (by decide),
   ((calculateTrend_spec [some 2, some 4]).2.2.2 4 2 [] rfl).2 (by norm_num)⟩

/-- C1: in every forecast returned by a successful `aggregate` call, the
direction is `UP` exactly when the predicted next close is at least the
current price; equality resolves to `UP` and a strictly lower prediction
gives `DOWN`. -/
theorem aggregate_direction_spec (m : WeightMethod) (rs : List (String × StrategyResult))
    (regime : Option ℤ) (cur : ℚ) (f : EnsembleForecast)
    (h : aggregate m rs regime cur = Except.ok f) :
    (f.direction = Direction.UP ↔ f.current_price ≤ f.predicted_next_close) ∧
    (f.predicted_next_close = f.current_price → f.direction = Direction.UP) ∧
    (f.predicted_next_close < f.current_price → f.direction = Direction.DOWN) := by
  obtain ⟨hf, -⟩ := aggregate_eq_ok h
  subst hf
  simp only [buildForecast]
  by_cases hle : cur ≤ predictedClose m regime (successesOf rs)
  · rw [if_pos hle]
    refine ⟨⟨fun _ => hle, fun _ => rfl⟩, fun _ => rfl, fun hlt => absurd hle (not_le.mpr hlt)⟩
  · rw [if_neg hle]
    exact ⟨⟨fun hud => (by cases hud), fun hc => absurd hc hle⟩,
      fun he => absurd he.ge (by simpa using hle), fun _ => rfl⟩

/-- Closed witness for C1 on the spec's worked scenario (three strategies
predicting 101, 99.5 and 100.5 at current price 100). -/
theorem aggregate_direction_spec_witness :
    (demoForecast.direction = Direction.UP ↔
      demoForecast.current_price ≤ demoForecast.predicted_next_close) ∧
    (demoForecast.predicted_next_close = demoForecast.current_price →
      demoForecast.direction = Direction.UP) ∧
    (demoForecast.predicted_next_close < demoForecast.current_price →
      demoForecast.direction = Direction.DOWN) :=
  aggregate_direction_spec WeightMethod.equalWeight demoResults none 100 demoForecast rfl

/-- C2: if every strategy failed, `aggregate` fails with
`InsufficientModelsError` instead of returning a forecast, and no forecast
it ever returns has `num_strategies = 0`. -/
theorem aggregate_insufficient_models_spec (m : WeightMethod)
    (rs : List (String × StrategyResult)) (regime : Option ℤ) (cur : ℚ) :
    ((∀ nr ∈ rs, nr.2.isSuccess = false) →
      aggregate m rs regime cur = Except.error insufficientModelsError) ∧
    (∀ f, aggregate m rs regime cur = Except.ok f → f.num_strategies ≠ 0) := by
  constructor
  · intro hall
    have hnil : successesOf rs = [] := by
      rw [successesOf, List.filterMap_eq_nil_iff]
      intro nr hnr
      have := hall nr hnr
      cases hr : nr.2 with
      | success p => rw [hr] at this; simp [StrategyResult.isSuccess] at this
      | failure r => simp
    rw [aggregate, hnil]
    rfl
  · intro f h
    obtain ⟨hf, hne⟩ := aggregate_eq_ok h
    subst hf
    simpa [buildForecast] using hne

/-- Closed witness for C2: an all-failure pool aggregates to the error, and
the worked scenario's forecast has a nonzero strategy count. -/
theorem aggregate_insufficient_models_spec_witness :
    aggregate WeightMethod.equalWeight allFailResults none 100 =
      Except.error insufficientModelsError ∧
    demoForecast.num_strategies ≠ 0 :=
  ⟨(aggregate_insufficient_models_spec WeightMethod.equalWeight allFailResults none 100).1
      (by decide),
   (aggregate_insufficient_models_spec WeightMethod.equalWeight demoResults none 100).2
      demoForecast rfl⟩

/-- C3: in every forecast returned by `aggregate`, `num_strategies` equals
the number of entries of `raw_predictions`, all of which carry the numeric
prediction of a successful strategy (failures are excluded from the map). -/
theorem aggregate_num_strategies_spec (m : WeightMethod) (rs : List (String × StrategyResult))
    (regime : Option ℤ) (cur : ℚ) (f : EnsembleForecast)
    (h : aggregate m rs regime cur = Except.ok f) :
    f.num_strategies = f.raw_predictions.length ∧
    f.raw_predictions = successesOf rs := by
  obtain ⟨hf, -⟩ := aggregate_eq_ok h
  subst hf
  exact ⟨rfl, rfl⟩

/-- Closed witness for C3 on the spec's worked scenario. -/
theorem aggregate_num_strategies_spec_witness :
    demoForecast.num_strategies = demoForecast.raw_predictions.length ∧
    demoForecast.raw_predictions = successesOf demoResults :=
  aggregate_num_strategies_spec WeightMethod.equalWeight demoResults none 100 demoForecast rfl

/-- Every digit character rendered by `Nat.digitChar` below 10 is a digit. -/
lemma digitChar_isDigit : ∀ d : ℕ, d < 10 → (Nat.digitChar d).isDigit = true := by decide

/-- C4: in every forecast returned by `aggregate`, `expected_change_pct` is
the percentage `(predicted_next_close - current_price) / current_price * 100`
rendered with exactly two decimal places and an explicit leading sign, the
sign being `+` whenever the percentage is non-negative. -/
theorem aggregate_expected_change_pct_spec (m : WeightMethod)
    (rs : List (String × StrategyResult)) (regime : Option ℤ) (cur : ℚ)
    (f : EnsembleForecast) (h : aggregate m rs regime cur = Except.ok f) :
    f.expected_change_pct =
      fmtSignedPct2
        ((f.predicted_next_close - f.current_price) / f.current_price * 100) ∧
    ∃ intDigits d₁ d₂,
      f.expected_change_pct =
        (if 0 ≤ (f.predicted_next_close - f.current_price) / f.current_price * 100
          then "+" else "-") ++ intDigits ++ "." ++ String.mk [d₁, d₂] ++ "%" ∧
      d₁.isDigit = true ∧ d₂.isDigit = true := by
  obtain ⟨hf, -⟩ := aggregate_eq_ok h
  subst hf
  refine ⟨rfl,
    toString
      (round2 |(predictedClose m regime (successesOf rs) - cur) / cur * 100| / 100),
    Nat.digitChar
      (round2 |(predictedClose m regime (successesOf rs) - cur) / cur * 100| % 100 / 10 % 10),
    Nat.digitChar
      (round2 |(predictedClose m regime (successesOf rs) - cur) / cur * 100| % 100 % 10),
    rfl,
    digitChar_isDigit _ (Nat.mod_lt _ (by norm_num)),
    digitChar_isDigit _ (Nat.mod_lt _ (by norm_num))⟩

/-- Closed witness for C4 on the spec's worked scenario. -/
theorem aggregate_expected_change_pct_spec_witness :
    demoForecast.expected_change_pct =
      fmtSignedPct2
        ((demoForecast.predicted_next_close - demoForecast.current_price) /
          demoForecast.current_price * 100) :=
  (aggregate_expected_change_pct_spec WeightMethod.equalWeight demoResults none 100
    demoForecast rfl).1

/-- `List.lookup` misses a key carried by no entry. -/
lemma lookup_eq_none_of_keys {β : Type} (k : String) (l : List (String × β))
    (h : ∀ p ∈ l, p.1 ≠ k) : l.lookup k = none := by
  induction l with
  | nil => rfl
  | cons hd tl ih =>
    rcases hd with ⟨k', v'⟩
    have hk : k ≠ k' := fun he => (h (k', v') (List.mem_cons_self _ _)) he.symm
    simp only [List.lookup]
    rw [show (k == k') = false from beq_eq_false_iff_ne.mpr hk]
    exact ih fun p hp => h p (List.mem_cons_of_mem _ hp)

/-- With duplicate-free keys, `List.lookup` finds a member's value. -/
lemma lookup_of_mem_nodup {β : Type} {l : List (String × β)}
    (hnd : (l.map Prod.fst).Nodup) {k : String} {v : β}
    (h : (k, v) ∈ l) : l.lookup k = some v := by
  induction l with
  | nil => cases h
  | cons hd tl ih =>
    rw [List.map_cons, List.nodup_cons] at hnd
    rcases hd with ⟨k', v'⟩
    rcases List.mem_cons.mp h with h1 | h1
    · obtain ⟨hk, hv⟩ := Prod.mk.injEq .. ▸ h1
      subst hk
      subst hv
      simp [List.lookup]
    · have hk : k ≠ k' := by
        intro he
        subst he
        exact hnd.1 (List.mem_map.mpr ⟨(k, v), h1, rfl⟩)
      simp only [List.lookup]
      rw [show (k == k') = false from beq_eq_false_iff_ne.mpr hk]
      exact ih hnd.2 h1

/-- With duplicate-free keys, two members sharing a key carry the same
value. -/
lemma mem_unique_of_nodup_keys {β : Type} {l : List (String × β)}
    (hnd : (l.map Prod.fst).Nodup) {k : String} {a b : β}
    (ha : (k, a) ∈ l) (hb : (k, b) ∈ l) : a = b := by
  have h1 := lookup_of_mem_nodup hnd ha
  have h2 := lookup_of_mem_nodup hnd hb
  rw [h1] at h2
  exact (Option.some.injEq _ _ ▸ h2).symm ▸ rfl

/-- A member of `successesOf rs` is a successful entry of `rs`. -/
lemma mem_successesOf {rs : List (String × StrategyResult)} {p : String × ℚ}
    (h : p ∈ successesOf rs) : (p.1, StrategyResult.success p.2) ∈ rs := by
  rw [successesOf, List.mem_filterMap] at h
  obtain ⟨nr, hnr, heq⟩ := h
  cases hr : nr.2 with
  | success q =>
    rw [hr] at heq
    simp only [Option.some.injEq] at heq
    have : nr = (p.1, StrategyResult.success p.2) := by
      rcases nr with ⟨n, r⟩
      simp only at hr
      subst hr
      cases heq
      rfl
    exact this ▸ hnr
  | failure r => rw [hr] at heq; cases heq

/-- C5: a failed headline strategy still appears in `models` with the
explicit failure sentinel, is omitted from `raw_predictions` (hence excluded
from `num_strategies`, which counts exactly the `raw_predictions` entries),
and the forecast as a whole still succeeds when another strategy
succeeded. -/
theorem aggregate_headline_failure_spec (m : WeightMethod)
    (rs : List (String × StrategyResult)) (regime : Option ℤ) (cur : ℚ)
    (name reason : String)
    (hnd : (rs.map Prod.fst).Nodup)
    (hmem : (name, StrategyResult.failure reason) ∈ rs)
    (hhead : name ∈ headlineNames)
    (hsome : ∃ nr ∈ rs, nr.2.isSuccess = true) :
    aggregate m rs regime cur = Except.ok (buildForecast m rs regime cur) ∧
    (name, ModelEntry.failedSentinel) ∈ (buildForecast m rs regime cur).models ∧
    (buildForecast m rs regime cur).raw_predictions.lookup name = none ∧
    name ∉ (buildForecast m rs regime cur).raw_predictions.map Prod.fst ∧
    (buildForecast m rs regime cur).num_strategies =
      (buildForecast m rs regime cur).raw_predictions.length := by
  have hkeys : ∀ p ∈ successesOf rs, p.1 ≠ name := by
    intro p hp he
    have hs := mem_successesOf hp
    rw [he] at hs
    exact absurd (mem_unique_of_nodup_keys hnd hs hmem) (by simp)
  have hne : successesOf rs ≠ [] := by
    obtain ⟨nr, hnr, hs⟩ := hsome
    cases hr : nr.2 with
    | success q =>
      intro hnil
      have : (nr.1, q) ∈ successesOf rs := by
        rw [successesOf, List.mem_filterMap]
        exact ⟨nr, hnr, by rw [hr]⟩
      rw [hnil] at this
      cases this
    | failure r => rw [hr] at hs; simp [StrategyResult.isSuccess] at hs
  refine ⟨?_, ?_, ?_, ?_, rfl⟩
  · rw [aggregate, if_neg (by simpa [List.isEmpty_iff] using hne)]
  · refine List.mem_map.mpr ⟨name, hhead, ?_⟩
    rw [modelEntryFor, lookup_of_mem_nodup hnd hmem]
  · exact lookup_eq_none_of_keys name _ hkeys
  · intro hk
    obtain ⟨p, hp, hpk⟩ := List.mem_map.mp hk
    exact hkeys p hp hpk

/-- Closed witness for C5: LSTM fails while the two other headline models
succeed. -/
theorem aggregate_headline_failure_spec_witness :
    aggregate WeightMethod.equalWeight lstmFailResults none 100 =
      Except.ok (buildForecast WeightMethod.equalWeight lstmFailResults none 100) ∧
    ("LSTM", ModelEntry.failedSentinel) ∈
      (buildForecast WeightMethod.equalWeight lstmFailResults none 100).models ∧
    (buildForecast WeightMethod.equalWeight lstmFailResults none 100).raw_predictions.lookup
      "LSTM" = none ∧
    "LSTM" ∉ (buildForecast WeightMethod.equalWeight lstmFailResults none
      100).raw_predictions.map Prod.fst ∧
    (buildForecast WeightMethod.equalWeight lstmFailResults none 100).num_strategies =
      (buildForecast WeightMethod.equalWeight lstmFailResults none 100).raw_predictions.length :=
  aggregate_headline_failure_spec WeightMethod.equalWeight lstmFailResults none 100
    "LSTM" "Model Loading" (by decide) (by simp [lstmFailResults]) (by decide) (by decide)

/-- C6: a returned forecast whose `cluster_regime` is null reports the
equal-weight fallback as its `ensemble_method`, never the regime-weighted
identifier. -/
theorem aggregate_null_regime_spec (m : WeightMethod) (rs : List (String × StrategyResult))
    (regime : Option ℤ) (cur : ℚ) (f : EnsembleForecast)
    (h : aggregate m rs regime cur = Except.ok f) (hnull : f.cluster_regime = none) :
    f.ensemble_method = "equal_weight" ∧ f.ensemble_method ≠ "regime_weighted" := by
  obtain ⟨hf, -⟩ := aggregate_eq_ok h
  subst hf
  have hreg : regime = none := hnull
  subst hreg
  have hne : ("equal_weight" : String) ≠ "regime_weighted" := by decide
  cases m with
  | equalWeight => exact ⟨rfl, hne⟩
  | regimeWeighted t => exact ⟨rfl, hne⟩

/-- Closed witness for C6 on the spec's worked scenario (no regime). -/
theorem aggregate_null_regime_spec_witness :
    demoForecast.ensemble_method = "equal_weight" ∧
    demoForecast.ensemble_method ≠ "regime_weighted" :=
  aggregate_null_regime_spec WeightMethod.equalWeight demoResults none 100 demoForecast
    rfl rfl

/-- C7: `aggregate` is deterministic: two calls with identical strategy
results, regime, current price and configuration return identical
`EnsembleForecast` values; being a pure function of those inputs, it cannot
mutate the strategy results it is given. -/
theorem aggregate_deterministic_spec (m : WeightMethod)
    (rs₁ rs₂ : List (String × StrategyResult)) (reg₁ reg₂ : Option ℤ) (cur₁ cur₂ : ℚ)
    (h1 : rs₁ = rs₂) (h2 : reg₁ = reg₂) (h3 : cur₁ = cur₂) :
    aggregate m rs₁ reg₁ cur₁ = aggregate m rs₂ reg₂ cur₂ := by
  subst h1
  subst h2
  subst h3
  rfl

/-- Closed witness for C7 on the spec's worked scenario. -/
theorem aggregate_deterministic_spec_witness :
    aggregate WeightMethod.equalWeight demoResults none 100 =
      aggregate WeightMethod.equalWeight demoResults none 100 :=
  aggregate_deterministic_spec WeightMethod.equalWeight demoResults demoResults none none
    100 100 rfl rfl rfl
